import Mathlib

/-!
Verification development for the ElasticSearch ingestion notebook
(`2.+ElasticSearch-Tricks-and-Tips.py`).  The definitions below are a
shallow embedding of the data model and operations of that script:
rows of the two dataframes, the document dictionaries and action
descriptors built from them, the index/mapping lifecycle calls, the
per-document submission loop with its catch-all error handling, and
the query construction.  The engine itself is external to the
repository; where its semantics are needed they are modelled from the
specification text and marked as such.
-/

set_option autoImplicit false

namespace YelpES

/-- Field values as they appear in the dataframe rows and document
dictionaries; `null` stands for a pandas NaN / missing value. -/
inductive Value where
  | str (s : String)
  | int (n : Int)
  | float (q : Rat)
  | null
  deriving DecidableEq, Repr

/-- true exactly on the `null` value (mirrors `isnull()` on a cell). -/
def Value.isNull : Value → Bool
  | .null => true
  | _ => false

/-- A document body, as built in the script: a python dict, embedded as
an association list from field name to value in insertion order. -/
def Doc : Type := List (String × Value)

instance : DecidableEq Doc := inferInstanceAs (DecidableEq (List (String × Value)))
instance : Repr Doc := inferInstanceAs (Repr (List (String × Value)))

/-- Keyed lookup in an association list, first match wins (python dict
subscript / `get`). -/
def lookupKey {α β : Type} [DecidableEq α] (k : α) : List (α × β) → Option β
  | [] => none
  | (a, b) :: es => if a = k then some b else lookupKey k es

/-- Lookup of a field in a document dictionary. -/
def Doc.get (d : Doc) (k : String) : Option Value := lookupKey k d

/-- One row of the review dataframe (`yelp_df_forES.msg`).  The column
`sent_per_token` is the one that can hold a NaN (line 277 of the
source); it is therefore given type `Value`. -/
structure ReviewRow where
  text : String
  net_sentiment : Int
  sent_per_token : Value
  stars : Int
  fake_name : String
  user_id : String
  business_id : String
  date : String
  review_id : String
  deriving DecidableEq, Repr

/-- One row of the business dataframe (`biz_stats_df.msg`). -/
structure BizRow where
  net_sentiment_median : Value
  sent_per_token_median : Value
  stars_median : Value
  stars_mean : Value
  fake_name : String
  text_length_median : Value
  business_id : String
  reviews : Int
  deriving DecidableEq, Repr

/-- The `data_dict` built for a review row (source lines 308-318),
fields in the insertion order of the script. -/
def review_data_dict (r : ReviewRow) : Doc :=
  [("text_orig", .str r.text),
   ("text", .str r.text),
   ("net_sentiment", .int r.net_sentiment),
   ("sent_per_token", r.sent_per_token),
   ("stars", .int r.stars),
   ("fake_name", .str r.fake_name),
   ("user_id", .str r.user_id),
   ("business_id", .str r.business_id),
   ("date", .str r.date),
   ("review_id", .str r.review_id)]

/-- The `data_dict` built for a business row (source lines 412-420). -/
def biz_data_dict (b : BizRow) : Doc :=
  [("net_sentiment_median", b.net_sentiment_median),
   ("sent_per_token_median", b.sent_per_token_median),
   ("stars_median", b.stars_median),
   ("stars_mean", b.stars_mean),
   ("fake_name", .str b.fake_name),
   ("text_length_median", b.text_length_median),
   ("business_id", .str b.business_id),
   ("reviews", .int b.reviews)]

/-- An action descriptor of a bulk operation (`op_dict`): the outer
dict key is the operation kind (always "index" in the script), the
inner dict carries `_index`, `_type` and `_id`. -/
structure OpDict where
  kind : String
  ix : String
  ty : String
  id : String
  deriving DecidableEq, Repr

/-- The `op_dict` for a review row (source lines 319-323): the target
id is the natural key `review_id` of the row. -/
def review_op_dict (r : ReviewRow) : OpDict :=
  ⟨"index", "yelp", "review", r.review_id⟩

/-- The `op_dict` for a business row (source lines 421-425): the
target id is the natural key `business_id` of the row. -/
def biz_op_dict (b : BizRow) : OpDict :=
  ⟨"index", "yelp", "business", b.business_id⟩

/-- An element of the `bulk_data` list: alternating action descriptors
and document payloads. -/
inductive BulkItem where
  | op (o : OpDict)
  | data (d : Doc)
  deriving DecidableEq, Repr

/-- The `bulk_data` list as built by the loop of source lines 305-325:
for each row, first the action descriptor, then the payload. -/
def review_bulk_data (rows : List ReviewRow) : List BulkItem :=
  rows.foldr (fun r acc => .op (review_op_dict r) :: .data (review_data_dict r) :: acc) []

/-- The `bulk_data` list of the business loop (source lines 409-427). -/
def biz_bulk_data (rows : List BizRow) : List BulkItem :=
  rows.foldr (fun b acc => .op (biz_op_dict b) :: .data (biz_data_dict b) :: acc) []

/-- The id that the per-document fallback submission reads from a
payload: `obj` subscripted at `review_id` (source line 339). -/
def fallbackId (d : Doc) : Option String :=
  match d.get "review_id" with
  | some (.str s) => some s
  | _ => none

/-- The indexing mode of a field mapping: `analyzed` or
`not_analyzed`, the two values used in the script. -/
inductive IndexMode where
  | analyzed
  | not_analyzed
  deriving DecidableEq, Repr

/-- One field of a document-type mapping, carrying exactly the keys the
script uses: `index` mode (optional, the engine defaults when absent),
`type`, and optional `analyzer`, `store`, `term_vector`, `format`. -/
structure FieldMapping where
  index : Option IndexMode
  type : String
  analyzer : Option String := none
  store : Option String := none
  term_vector : Option String := none
  format : Option String := none
  deriving DecidableEq, Repr

/-- The `properties` dict of one document type. -/
def DocTypeMapping : Type := List (String × FieldMapping)

instance : DecidableEq DocTypeMapping :=
  inferInstanceAs (DecidableEq (List (String × FieldMapping)))

/-- The review mapping (source lines 280-297, `MAPPING` for doc type
`review`). -/
def REVIEW_MAPPING : DocTypeMapping :=
  [("business_id", { index := some .not_analyzed, type := "string" }),
   ("date", { index := some .not_analyzed, type := "date", format := some "dateOptionalTime" }),
   ("review_id", { index := some .not_analyzed, type := "string" }),
   ("stars", { index := some .not_analyzed, type := "integer" }),
   ("text", { index := some .analyzed, type := "string", analyzer := some "english",
              store := some "yes", term_vector := some "with_positions_offsets_payloads" }),
   ("fake_name", { index := some .not_analyzed, type := "string" }),
   ("text_orig", { index := some .not_analyzed, type := "string" }),
   ("user_id", { index := some .not_analyzed, type := "string" }),
   ("net_sentiment", { index := some .not_analyzed, type := "integer" }),
   ("sent_per_token", { index := some .not_analyzed, type := "float" })]

/-- The business mapping (source lines 393-403, `B_MAPPING` for doc
type `business`). -/
def B_MAPPING : DocTypeMapping :=
  [("business_id", { index := some .not_analyzed, type := "string" }),
   ("reviews", { index := some .not_analyzed, type := "integer" }),
   ("stars_median", { index := some .not_analyzed, type := "float" }),
   ("stars_mean", { index := some .not_analyzed, type := "float" }),
   ("text_length_median", { index := some .not_analyzed, type := "float" }),
   ("fake_name", { index := some .not_analyzed, type := "string" }),
   ("net_sentiment_median", { index := some .not_analyzed, type := "float" }),
   ("sent_per_token_median", { index := some .not_analyzed, type := "float" })]

/-- The first mapping of the script (source lines 224-233, `MAPPING`
for doc type `my_doc_type`): a single `title` field with a custom
analyzer and no explicit index mode. -/
def MY_DOC_MAPPING : DocTypeMapping :=
  [("title", { index := none, type := "string", analyzer := some "my_analyzer" })]

/-- A custom character filter entry of the analysis settings (the
`&_to_and` entry of `MY_SETTINGS`, source lines 207-210). -/
structure CharFilterSpec where
  type : String
  mappings : List String
  deriving DecidableEq, Repr

/-- A custom token filter entry of the analysis settings (the
`my_stopwords` entry of `MY_SETTINGS`, source lines 211-214). -/
structure TokenFilterSpec where
  type : String
  stopwords : List String
  deriving DecidableEq, Repr

/-- A named analyzer definition: type, character filters, one
tokenizer, token filters (source lines 215-220 and, for the engine
default, the definition quoted at source lines 62-68). -/
structure AnalyzerSpec where
  type : String
  char_filter : List String
  tokenizer : String
  filter : List String
  deriving DecidableEq, Repr

/-- The analysis section of index settings (the body passed to index
creation). -/
structure AnalysisSettings where
  char_filter : List (String × CharFilterSpec)
  filter : List (String × TokenFilterSpec)
  analyzer : List (String × AnalyzerSpec)
  deriving DecidableEq, Repr

/-- The `MY_SETTINGS` body (source lines 204-222). -/
def MY_SETTINGS : AnalysisSettings :=
  { char_filter := [("&_to_and", { type := "mapping", mappings := ["&=> and "] })],
    filter := [("my_stopwords", { type := "stop", stopwords := ["the", "a"] })],
    analyzer := [("my_analyzer",
      { type := "custom", char_filter := ["html_strip", "&_to_and"],
        tokenizer := "standard", filter := ["lowercase", "my_stopwords"] })] }

/-- Errors the engine can answer a single write with. -/
inductive EsError where
  | indexMissing
  | docRejected
  deriving DecidableEq, Repr

/-- Modelled from the spec: the state of the external search engine,
which is not part of this repository.  It holds the set of existing
indices, per-index analysis settings, per-(index, doc-type) mappings,
and a document store keyed by (index, doc type, id).  The abstract
predicate `rejects` stands for engine-side validation of a document
body (the "malformed field causing engine rejection" of the spec). -/
structure Engine where
  indices : List String
  analysisSettings : List (String × AnalysisSettings)
  mappings : List ((String × String) × DocTypeMapping)
  store : List ((String × String × String) × Doc)
  rejects : Doc → Bool

/-- Modelled from the spec: deleting an index removes it together with
its settings, mappings and all of its documents. -/
def esDelete (e : Engine) (name : String) : Engine :=
  { e with
    indices := e.indices.filter (fun i => i ≠ name),
    analysisSettings := e.analysisSettings.filter (fun p => p.1 ≠ name),
    mappings := e.mappings.filter (fun p => p.1.1 ≠ name),
    store := e.store.filter (fun p => p.1.1 ≠ name) }

/-- Modelled from the spec: creating an index registers its name and
its (optional) analysis settings body.  In the script, creation is
always preceded by deletion when the index existed, so no failure
branch is modelled. -/
def esCreate (e : Engine) (name : String) (s : Option AnalysisSettings) : Engine :=
  { e with
    indices := name :: e.indices,
    analysisSettings :=
      match s with
      | some v => (name, v) :: e.analysisSettings.filter (fun p => p.1 ≠ name)
      | none => e.analysisSettings.filter (fun p => p.1 ≠ name) }

/-- Modelled from the spec: `put_mapping` sets the mapping of one
document type of one index, leaving everything else alone. -/
def esPutMapping (e : Engine) (name dt : String) (m : DocTypeMapping) : Engine :=
  { e with
    mappings := ((name, dt), m) :: e.mappings.filter (fun p => p.1 ≠ (name, dt)) }

/-- Modelled from the spec: a single-document write.  It fails when
the target index does not exist or when the engine rejects the body;
otherwise it stores the document under its (index, doc type, id) key,
overwriting any previous document with that key (operation kind
`index` overwrites, it does not append). -/
def esIndex (e : Engine) (ix dt i : String) (d : Doc) : Except EsError Engine :=
  if ix ∈ e.indices then
    if e.rejects d then .error .docRejected
    else .ok { e with
      store := ((ix, dt, i), d) :: e.store.filter (fun p => p.1 ≠ (ix, dt, i)) }
  else .error .indexMissing

/-- Modelled from the spec: a term search returns the stored documents
of the given index and doc type whose named field equals the given
string value exactly. -/
def esTermSearch (e : Engine) (ix dt field value : String) : List Doc :=
  (e.store.filter (fun p =>
    decide (p.1.1 = ix ∧ p.1.2.1 = dt ∧ p.2.get field = some (.str value)))).map (fun p => p.2)

/-- The query shapes the claims are about: the constant-score term
filter of source lines 454-459. -/
inductive QuerySpec where
  | constantScoreTerm (field value : String)
  deriving DecidableEq, Repr

/-- A request issued to the engine, used to trace which submissions a
load path performs. -/
inductive EngineCall where
  | bulkCall (ix : String) (body : List BulkItem)
  | indexCall (ix dt i : String) (d : Doc)
  | searchCall (ix dt : String) (q : QuerySpec)
  deriving DecidableEq, Repr

/-- true on per-document index calls only. -/
def EngineCall.isIndexCall : EngineCall → Bool
  | .indexCall _ _ _ _ => true
  | _ => false

/-- true on aggregate bulk calls only. -/
def EngineCall.isBulkCall : EngineCall → Bool
  | .bulkCall _ _ => true
  | _ => false

/-- The observable outcome of the per-document loop: number of
successful writes and the failed payloads printed by the `except`
branch (the script records a failure by printing the object; the
report collects exactly those objects). -/
structure LoadReport where
  succeeded : Nat
  failures : List BulkItem
  deriving DecidableEq, Repr

/-- The state threaded through the per-document loop: the engine, the
report, and the trace of calls issued so far. -/
structure LoadOutcome where
  engine : Engine
  report : LoadReport
  calls : List EngineCall

/-- One iteration of the loop of source lines 335-341: items at even
positions (the action descriptors) are skipped by the parity test;
for an item at an odd position the script reads `obj` at key
`review_id` and issues a single-document write, and the bare `except`
catches any failure (engine rejection, missing index, or a missing
key) and records the object.  A failed write still issued its request,
so the call is traced in both branches; when the key lookup itself
fails no request was issued. -/
def tryIndexStep (acc : LoadOutcome) : Nat × BulkItem → LoadOutcome
  | (ind, item) =>
    if ind % 2 ≠ 0 then
      match item with
      | .data obj =>
        match fallbackId obj with
        | some i =>
          match esIndex acc.engine "yelp" "review" i obj with
          | .ok e' =>
            { engine := e',
              report := { succeeded := acc.report.succeeded + 1,
                          failures := acc.report.failures },
              calls := acc.calls ++ [.indexCall "yelp" "review" i obj] }
          | .error _ =>
            { engine := acc.engine,
              report := { succeeded := acc.report.succeeded,
                          failures := acc.report.failures ++ [item] },
              calls := acc.calls ++ [.indexCall "yelp" "review" i obj] }
        | none =>
          { engine := acc.engine,
            report := { succeeded := acc.report.succeeded,
                        failures := acc.report.failures ++ [item] },
            calls := acc.calls }
      | .op _ =>
        { engine := acc.engine,
          report := { succeeded := acc.report.succeeded,
                      failures := acc.report.failures ++ [item] },
          calls := acc.calls }
    else acc

/-- The per-document submission loop (source lines 334-341):
`for ind, obj in enumerate(bulk_data)` with the body of
`tryIndexStep`.  The aggregate bulk call that precedes it in the
source (line 332) is commented out there, so the loop is the whole of
the review load path. -/
def perDocLoad (e : Engine) (bulk : List BulkItem) : LoadOutcome :=
  (bulk.enum).foldl tryIndexStep ⟨e, ⟨0, []⟩, []⟩

/-- The row filter of source line 278: keep the rows whose
`sent_per_token` is not null. -/
def filterRows (rows : List ReviewRow) : List ReviewRow :=
  rows.filter (fun r => !(r.sent_per_token.isNull))

/-- The full review ingestion path (source lines 277-341): filter out
null `sent_per_token` rows, build the bulk list, submit per document. -/
def reviewPipeline (e : Engine) (rows : List ReviewRow) : LoadOutcome :=
  perDocLoad e (review_bulk_data (filterRows rows))

/-- The business load path (source line 430): a single aggregate bulk
submission of the whole batch, with no per-document fallback. -/
def bizBulkLoadCalls (rows : List BizRow) : List EngineCall :=
  [.bulkCall "yelp" (biz_bulk_data rows)]

/-- The index recreation snippet the script uses twice (source lines
242-245 for `my_index` with `MY_SETTINGS`, and lines 299-302 for
`yelp` without a settings body): delete the index if it exists, create
it, then put the document-type mapping. -/
def recreateIndex (e : Engine) (name : String) (s : Option AnalysisSettings)
    (dt : String) (m : DocTypeMapping) : Engine :=
  let e1 := if name ∈ e.indices then esDelete e name else e
  let e2 := esCreate e1 name s
  esPutMapping e2 name dt m

/-- The reuse path of source lines 405-407: the delete and create
calls are commented out, only `put_mapping` for the new doc type
`business` is executed against the existing `yelp` index. -/
def addBusinessMapping (e : Engine) : Engine :=
  esPutMapping e "yelp" "business" B_MAPPING

/-- The exact-value filter of source lines 452-461: build a
constant-score term query for the field/value pair and issue it as a
search, unconditionally; the result is the matching documents together
with the trace of the one call issued. -/
def exactTermFilter (e : Engine) (ix dt field value : String) :
    List Doc × List EngineCall :=
  (esTermSearch e ix dt field value,
   [.searchCall ix dt (.constantScoreTerm field value)])

/-! ## Proof infrastructure -/

/-- Structural restatement of the per-document loop on the review
rows: the loop of `perDocLoad` visits exactly the payload items of
`review_bulk_data`, one per row, in order (proved below as
`perDocLoad_eq_processRows`). -/
def processRows (acc : LoadOutcome) : List ReviewRow → LoadOutcome
  | [] => acc
  | r :: rs =>
    match esIndex acc.engine "yelp" "review" r.review_id (review_data_dict r) with
    | .ok e' =>
      processRows
        ⟨e', ⟨acc.report.succeeded + 1, acc.report.failures⟩,
         acc.calls ++ [.indexCall "yelp" "review" r.review_id (review_data_dict r)]⟩ rs
    | .error _ =>
      processRows
        ⟨acc.engine,
         ⟨acc.report.succeeded, acc.report.failures ++ [.data (review_data_dict r)]⟩,
         acc.calls ++ [.indexCall "yelp" "review" r.review_id (review_data_dict r)]⟩ rs

theorem fallbackId_review (r : ReviewRow) :
    fallbackId (review_data_dict r) = some r.review_id := rfl

theorem review_data_dict_get_review_id (r : ReviewRow) :
    (review_data_dict r).get "review_id" = some (.str r.review_id) := rfl

theorem review_data_dict_get_sent_per_token (r : ReviewRow) :
    (review_data_dict r).get "sent_per_token" = some r.sent_per_token := rfl

theorem enumFrom_cons' {α : Type} (n : Nat) (x : α) (l : List α) :
    List.enumFrom n (x :: l) = (n, x) :: List.enumFrom (n + 1) l := rfl

theorem tryIndexStep_even (acc : LoadOutcome) (n : Nat) (hn : n % 2 = 0)
    (item : BulkItem) : tryIndexStep acc (n, item) = acc := by
  simp [tryIndexStep, hn]

theorem tryIndexStep_odd_data (acc : LoadOutcome) (n : Nat) (hn : n % 2 ≠ 0)
    (r : ReviewRow) :
    tryIndexStep acc (n, .data (review_data_dict r)) =
      match esIndex acc.engine "yelp" "review" r.review_id (review_data_dict r) with
      | .ok e' =>
        { engine := e',
          report := { succeeded := acc.report.succeeded + 1,
                      failures := acc.report.failures },
          calls := acc.calls ++
            [.indexCall "yelp" "review" r.review_id (review_data_dict r)] }
      | .error _ =>
        { engine := acc.engine,
          report := { succeeded := acc.report.succeeded,
                      failures := acc.report.failures ++ [.data (review_data_dict r)] },
          calls := acc.calls ++
            [.indexCall "yelp" "review" r.review_id (review_data_dict r)] } := by
  simp only [tryIndexStep, fallbackId_review]
  rw [if_pos hn]

theorem perDocLoad_bridge (rows : List ReviewRow) :
    ∀ (n : Nat), n % 2 = 0 → ∀ (acc : LoadOutcome),
      (List.enumFrom n (review_bulk_data rows)).foldl tryIndexStep acc
        = processRows acc rows := by
  induction rows with
  | nil => intro n _ acc; rfl
  | cons r rs ih =>
    intro n hn acc
    have hb : review_bulk_data (r :: rs)
        = .op (review_op_dict r) :: .data (review_data_dict r) :: review_bulk_data rs := rfl
    rw [hb, enumFrom_cons', enumFrom_cons', List.foldl_cons, List.foldl_cons,
      tryIndexStep_even acc n hn,
      tryIndexStep_odd_data acc (n + 1) (by omega) r]
    cases h : esIndex acc.engine "yelp" "review" r.review_id (review_data_dict r) with
    | ok e' =>
      simp only [processRows, h]
      exact ih (n + 2) (by omega) _
    | error err =>
      simp only [processRows, h]
      exact ih (n + 2) (by omega) _

theorem perDocLoad_eq_processRows (e : Engine) (rows : List ReviewRow) :
    perDocLoad e (review_bulk_data rows) = processRows ⟨e, ⟨0, []⟩, []⟩ rows :=
  perDocLoad_bridge rows 0 rfl _

theorem esIndex_accept (e : Engine) (ix dt i : String) (d : Doc)
    (hmem : ix ∈ e.indices) (hrej : e.rejects d = false) :
    esIndex e ix dt i d = .ok
      { e with store := ((ix, dt, i), d) :: e.store.filter (fun p => p.1 ≠ (ix, dt, i)) } := by
  simp [esIndex, hmem, hrej]

theorem esIndex_reject (e : Engine) (ix dt i : String) (d : Doc)
    (hmem : ix ∈ e.indices) (hrej : e.rejects d = true) :
    esIndex e ix dt i d = .error .docRejected := by
  simp [esIndex, hmem, hrej]

theorem esIndex_missing (e : Engine) (ix dt i : String) (d : Doc)
    (hmem : ix ∉ e.indices) :
    esIndex e ix dt i d = .error .indexMissing := by
  simp [esIndex, hmem]

theorem processRows_calls (rows : List ReviewRow) :
    ∀ (acc : LoadOutcome),
      (processRows acc rows).calls
        = acc.calls
          ++ rows.map (fun r => .indexCall "yelp" "review" r.review_id (review_data_dict r)) := by
  induction rows with
  | nil => intro acc; simp [processRows]
  | cons r rs ih =>
    intro acc
    cases h : esIndex acc.engine "yelp" "review" r.review_id (review_data_dict r) with
    | ok e' => simp [processRows, h, ih]
    | error err => simp [processRows, h, ih]

theorem processRows_total (rows : List ReviewRow) :
    ∀ (acc : LoadOutcome),
      (processRows acc rows).report.succeeded
          + (processRows acc rows).report.failures.length
        = acc.report.succeeded + acc.report.failures.length + rows.length := by
  induction rows with
  | nil => intro acc; simp [processRows]
  | cons r rs ih =>
    intro acc
    cases h : esIndex acc.engine "yelp" "review" r.review_id (review_data_dict r) with
    | ok e' =>
      rw [processRows, h]
      rw [ih]
      simp
      omega
    | error err =>
      rw [processRows, h]
      rw [ih]
      simp
      omega

theorem processRows_report (rows : List ReviewRow) :
    ∀ (acc : LoadOutcome), "yelp" ∈ acc.engine.indices →
      ((processRows acc rows).report.succeeded
          = acc.report.succeeded
            + rows.countP (fun r => !acc.engine.rejects (review_data_dict r))) ∧
      ((processRows acc rows).report.failures
          = acc.report.failures
            ++ (rows.filter (fun r => acc.engine.rejects (review_data_dict r))).map
                (fun r => BulkItem.data (review_data_dict r))) := by
  induction rows with
  | nil => intro acc _; simp [processRows]
  | cons r rs ih =>
    intro acc hmem
    cases hr : acc.engine.rejects (review_data_dict r) with
    | false =>
      rw [processRows, esIndex_accept _ _ _ _ _ hmem hr]
      have ih' := ih
        ⟨{ acc.engine with store := (("yelp", "review", r.review_id), review_data_dict r)
              :: acc.engine.store.filter (fun p => p.1 ≠ ("yelp", "review", r.review_id)) },
          ⟨acc.report.succeeded + 1, acc.report.failures⟩,
          acc.calls ++ [.indexCall "yelp" "review" r.review_id (review_data_dict r)]⟩
        hmem
      refine ⟨?_, ?_⟩
      · rw [ih'.1]
        simp [List.countP_cons, hr]
        omega
      · rw [ih'.2]
        simp [List.filter_cons, hr]
    | true =>
      rw [processRows, esIndex_reject _ _ _ _ _ hmem hr]
      have ih' := ih
        ⟨acc.engine,
          ⟨acc.report.succeeded, acc.report.failures ++ [.data (review_data_dict r)]⟩,
          acc.calls ++ [.indexCall "yelp" "review" r.review_id (review_data_dict r)]⟩
        hmem
      refine ⟨?_, ?_⟩
      · rw [ih'.1]
        simp [List.countP_cons, hr]
      · rw [ih'.2]
        simp [List.filter_cons, hr]

/-! ## Concrete fixtures for the witness and counterexample theorems -/

/-- A sample review row with a well-formed body. -/
def rW1 : ReviewRow :=
  { text := "Great pizza", net_sentiment := 10, sent_per_token := .float 1,
    stars := 5, fake_name := "Alice", user_id := "u1", business_id := "b1",
    date := "2015-01-01", review_id := "r1" }

/-- A sample review row whose `stars` value the witness engine rejects
and whose `sent_per_token` is null. -/
def rW2 : ReviewRow :=
  { text := "Bad", net_sentiment := -2, sent_per_token := .null,
    stars := 0, fake_name := "Bob", user_id := "u2", business_id := "b2",
    date := "2015-01-02", review_id := "r2" }

/-- A witness engine: the `yelp` index exists and documents with
`stars = 0` are rejected. -/
def eW : Engine :=
  { indices := ["yelp"], analysisSettings := [], mappings := [], store := [],
    rejects := fun d => decide (d.get "stars" = some (.int 0)) }

/-- An engine in which no index exists at all (and nothing is ever
rejected for its body). -/
def eNo : Engine :=
  { indices := [], analysisSettings := [], mappings := [], store := [],
    rejects := fun _ => false }

/-! ## Claim theorems -/

/-- C1: for a batch of N documents in which exactly one document is
rejected by the engine, the per-document submission path catches the
failure, records exactly the rejected document in the failures of the
report (its payload carrying its id under `review_id`), still issues a
write for every one of the N documents, and reports
`succeeded = N - 1`. -/
theorem perDoc_single_failure_isolated (e : Engine) (rows : List ReviewRow)
    (hmem : "yelp" ∈ e.indices)
    (hone : (rows.filter (fun r => e.rejects (review_data_dict r))).length = 1) :
    (perDocLoad e (review_bulk_data rows)).report.succeeded = rows.length - 1 ∧
    (perDocLoad e (review_bulk_data rows)).report.failures
      = (rows.filter (fun r => e.rejects (review_data_dict r))).map
          (fun r => .data (review_data_dict r)) ∧
    (perDocLoad e (review_bulk_data rows)).calls
      = rows.map (fun r => .indexCall "yelp" "review" r.review_id (review_data_dict r)) ∧
    ∀ r ∈ rows, e.rejects (review_data_dict r) →
      (review_data_dict r).get "review_id" = some (.str r.review_id) := by
  rw [perDocLoad_eq_processRows]
  have hrep := processRows_report rows ⟨e, ⟨0, []⟩, []⟩ hmem
  have hc := processRows_calls rows ⟨e, ⟨0, []⟩, []⟩
  refine ⟨?_, ?_, ?_, ?_⟩
  · rw [hrep.1]
    have h1 : rows.countP (fun r => e.rejects (review_data_dict r)) = 1 := by
      rw [List.countP_eq_length_filter]; exact hone
    have h2 := List.length_eq_countP_add_countP
      (p := fun r => e.rejects (review_data_dict r)) (l := rows)
    simp only [decide_not, Bool.decide_eq_true] at h2
    show (0 : Nat) + rows.countP (fun r => !e.rejects (review_data_dict r)) = rows.length - 1
    omega
  · rw [hrep.2]
    simp
  · rw [hc]
    simp
  · intro r _ _
    exact review_data_dict_get_review_id r

/-- Witness for C1 at a concrete two-row batch on the engine `eW`,
which rejects exactly the second row. -/
theorem perDoc_single_failure_isolated_witness :
    ("yelp" ∈ eW.indices) ∧
    (([rW1, rW2].filter (fun r => eW.rejects (review_data_dict r))).length = 1) ∧
    (perDocLoad eW (review_bulk_data [rW1, rW2])).report.succeeded = 1 ∧
    (perDocLoad eW (review_bulk_data [rW1, rW2])).report.failures
      = [.data (review_data_dict rW2)] := by
  have h := perDoc_single_failure_isolated eW [rW1, rW2] (by decide) (by decide)
  refine ⟨by decide, by decide, ?_, ?_⟩
  · rw [h.1]; decide
  · rw [h.2.1]; decide

/-- C2 counterexample: on a concrete one-row batch the review load
path issues a per-document write as its first and only request and
never attempts an aggregate bulk submission (the bulk call of source
line 332 is commented out), contradicting the claim that every load
first attempts the aggregate submission and falls back per document
only on its failure. -/
theorem review_load_no_aggregate_counterexample :
    (perDocLoad eW (review_bulk_data [rW1])).calls
      = [.indexCall "yelp" "review" "r1" (review_data_dict rW1)] ∧
    ((perDocLoad eW (review_bulk_data [rW1])).calls.all
      (fun c => !c.isBulkCall)) = true := by
  exact ⟨by decide, by decide⟩

/-- C2 amended: the code is single-tier on both loads: the review
load issues only per-document writes (its aggregate submission is
disabled in the source and never attempted), and the business load
issues exactly one aggregate bulk submission of the full batch with no
per-document fallback. -/
theorem load_paths_single_tier (e : Engine) (rows : List ReviewRow)
    (brows : List BizRow) :
    ((perDocLoad e (review_bulk_data rows)).calls.all (fun c => !c.isBulkCall)) = true ∧
    ((bizBulkLoadCalls brows).all (fun c => !c.isIndexCall)) = true ∧
    bizBulkLoadCalls brows = [.bulkCall "yelp" (biz_bulk_data brows)] := by
  refine ⟨?_, by simp [bizBulkLoadCalls, EngineCall.isIndexCall], rfl⟩
  rw [perDocLoad_eq_processRows, processRows_calls]
  simp [EngineCall.isBulkCall]

/-- C3 counterexample: with no index existing at all, the per-document
load still returns normally with a full report - the missing-index
failure is caught per document and recorded - where the claim requires
the call to raise exactly when the target index does not exist. -/
theorem load_no_raise_on_missing_index_counterexample :
    (eNo.indices = []) ∧
    (perDocLoad eNo (review_bulk_data [rW1])).report
      = { succeeded := 0, failures := [.data (review_data_dict rW1)] } := by
  exact ⟨rfl, by decide⟩

/-- C3 amended: per-document failures never cause the load call to
raise, and in fact no condition does: for every engine state, a
missing target index included, the loop processes every document of
the batch and returns a report in which each document is accounted for
as either succeeded or failed. -/
theorem load_always_returns_full_report (e : Engine) (rows : List ReviewRow) :
    (perDocLoad e (review_bulk_data rows)).report.succeeded
      + (perDocLoad e (review_bulk_data rows)).report.failures.length
      = rows.length := by
  rw [perDocLoad_eq_processRows]
  have h := processRows_total rows ⟨e, ⟨0, []⟩, []⟩
  simpa using h

/-- Characterization of the non-null test on a value. -/
theorem Value.isNull_eq_false_iff (v : Value) : v.isNull = false ↔ v ≠ .null := by
  cases v <;> simp [Value.isNull]

/-- C7 counterexample: a row whose mandatory `sent_per_token` is null
is dropped before submission, but nothing counts it as skipped: the
pipeline output on the one-null-row input is identical, report and
calls alike, to the output on the empty input, so the report carries
no record of the filtered row and no reason. -/
theorem skipped_rows_not_counted_counterexample :
    (rW2.sent_per_token = .null) ∧
    (reviewPipeline eW [rW2]).report = (reviewPipeline eW []).report ∧
    (reviewPipeline eW [rW2]).calls = (reviewPipeline eW []).calls := by
  exact ⟨rfl, by decide, by decide⟩

/-- C7 amended: every row with a null `sent_per_token` is filtered out
before any submission - the writes issued are exactly one per surviving
row, and every submitted payload carries a non-null `sent_per_token` -
but the filtered rows are not counted: report and calls are computed
from the surviving rows alone, with no skipped count or reason. -/
theorem null_rows_filtered_before_submission (e : Engine) (rows : List ReviewRow) :
    ((reviewPipeline e rows).calls
      = (filterRows rows).map
          (fun r => .indexCall "yelp" "review" r.review_id (review_data_dict r))) ∧
    (∀ c ∈ (reviewPipeline e rows).calls, ∀ ix dt i d,
      c = .indexCall ix dt i d → d.get "sent_per_token" ≠ some .null) := by
  have hc : (reviewPipeline e rows).calls
      = (filterRows rows).map
          (fun r => .indexCall "yelp" "review" r.review_id (review_data_dict r)) := by
    show (perDocLoad e (review_bulk_data (filterRows rows))).calls = _
    rw [perDocLoad_eq_processRows, processRows_calls]
    simp
  refine ⟨hc, ?_⟩
  intro c hcm ix dt i d hcd
  rw [hc] at hcm
  obtain ⟨r, hr, hrc⟩ := List.mem_map.mp hcm
  rw [hcd] at hrc
  cases hrc
  rw [review_data_dict_get_sent_per_token r]
  have hmem := List.mem_filter.mp hr
  have hnn : r.sent_per_token ≠ .null := by
    have := hmem.2
    simp only [Bool.not_eq_true'] at this
    exact (Value.isNull_eq_false_iff r.sent_per_token).mp this
  intro hcontra
  exact hnn (Option.some.inj hcontra)

/-- Witness for the amended C7 theorem at a concrete two-row input on
the engine `eW`: the call for the surviving row is in the pipeline
trace and its payload has a non-null `sent_per_token`. -/
theorem null_rows_filtered_before_submission_witness :
    (review_data_dict rW1).get "sent_per_token" ≠ some Value.null := by
  have h := (null_rows_filtered_before_submission eW [rW1, rW2]).2
  exact h (.indexCall "yelp" "review" "r1" (review_data_dict rW1)) (by decide)
    "yelp" "review" "r1" (review_data_dict rW1) rfl

/-! ## Association list and filter helpers -/

theorem lookupKey_cons_self {α β : Type} [DecidableEq α] (k : α) (v : β)
    (l : List (α × β)) : lookupKey k ((k, v) :: l) = some v := by
  simp [lookupKey]

theorem lookupKey_filter_self {α β : Type} [DecidableEq α] (k : α)
    (l : List (α × β)) :
    lookupKey k (l.filter (fun p => p.1 ≠ k)) = none := by
  induction l with
  | nil => rfl
  | cons a l ih =>
    obtain ⟨a1, a2⟩ := a
    by_cases h : a1 = k
    · rw [List.filter_cons, if_neg (by simp [h])]
      exact ih
    · rw [List.filter_cons, if_pos (by simp [h]), lookupKey, if_neg h]
      exact ih

theorem lookupKey_filter_other {α β : Type} [DecidableEq α] (k k' : α)
    (l : List (α × β)) (hne : k' ≠ k) :
    lookupKey k' (l.filter (fun p => p.1 ≠ k)) = lookupKey k' l := by
  induction l with
  | nil => rfl
  | cons a l ih =>
    obtain ⟨a1, a2⟩ := a
    by_cases h : a1 = k
    · rw [List.filter_cons, if_neg (by simp [h]), ih, lookupKey,
        if_neg (fun hh => hne (by rw [← hh]; exact h))]
    · rw [List.filter_cons, if_pos (by simp [h]), lookupKey, lookupKey]
      by_cases h2 : a1 = k'
      · rw [if_pos h2, if_pos h2]
      · rw [if_neg h2, if_neg h2]
        exact ih

theorem filter_not_filter_eq_nil {α : Type} (f : α → Prop) [DecidablePred f]
    (l : List α) :
    (l.filter (fun a => ¬ f a)).filter (fun a => f a) = [] := by
  rw [List.filter_eq_nil_iff]
  intro a ha
  have h2 := (List.mem_filter.mp ha).2
  simp only [decide_eq_true_eq] at h2 ⊢
  exact h2

theorem filter_not_idem {α : Type} (f : α → Prop) [DecidablePred f] (l : List α) :
    (l.filter (fun a => ¬ f a)).filter (fun a => ¬ f a)
      = l.filter (fun a => ¬ f a) := by
  induction l with
  | nil => rfl
  | cons a l ih => by_cases h : f a <;> simp [List.filter_cons, h, ih]

/-- C5: recreating an index - drop it when it exists, then create it
with the supplied settings body, then put the document-type mapping -
leaves the index existing with exactly the supplied settings and
mapping and with no documents at all (every document it previously
held is lost), while the documents of every other index are untouched;
when no index of that name existed, it is simply created.  The
hypothesis states the engine invariant that stored documents live in
existing indices. -/
theorem recreateIndex_spec (e : Engine) (name : String)
    (s : Option AnalysisSettings) (dt : String) (m : DocTypeMapping)
    (hw : ∀ p ∈ e.store, p.1.1 ∈ e.indices) :
    name ∈ (recreateIndex e name s dt m).indices ∧
    (recreateIndex e name s dt m).store.filter (fun p => p.1.1 = name) = [] ∧
    lookupKey (name, dt) (recreateIndex e name s dt m).mappings = some m ∧
    lookupKey name (recreateIndex e name s dt m).analysisSettings = s ∧
    (recreateIndex e name s dt m).store.filter (fun p => p.1.1 ≠ name)
      = e.store.filter (fun p => p.1.1 ≠ name) := by
  by_cases hex : name ∈ e.indices
  · simp only [recreateIndex, if_pos hex]
    refine ⟨by simp [esPutMapping, esCreate, esDelete], ?_, ?_, ?_, ?_⟩
    · show ((esDelete e name).store.filter (fun p => p.1.1 = name)) = []
      exact filter_not_filter_eq_nil (fun p => p.1.1 = name) e.store
    · exact lookupKey_cons_self _ _ _
    · cases s with
      | some v => exact lookupKey_cons_self _ _ _
      | none =>
        show lookupKey name (((esDelete e name).analysisSettings).filter
          (fun p => p.1 ≠ name)) = none
        exact lookupKey_filter_self _ _
    · show ((esDelete e name).store.filter (fun p => p.1.1 ≠ name))
        = e.store.filter (fun p => p.1.1 ≠ name)
      exact filter_not_idem (fun p => p.1.1 = name) e.store
  · simp only [recreateIndex, if_neg hex]
    refine ⟨by simp [esPutMapping, esCreate], ?_, ?_, ?_, ?_⟩
    · show e.store.filter (fun p => p.1.1 = name) = []
      rw [List.filter_eq_nil_iff]
      intro p hp
      simp only [decide_eq_true_eq]
      intro hcontra
      exact hex (hcontra ▸ hw p hp)
    · exact lookupKey_cons_self _ _ _
    · cases s with
      | some v => exact lookupKey_cons_self _ _ _
      | none =>
        show lookupKey name (e.analysisSettings.filter (fun p => p.1 ≠ name)) = none
        exact lookupKey_filter_self _ _
    · rfl

/-- Witness for C5 on a concrete engine: the `yelp` index exists and
holds one document; after recreation with the review mapping the index
exists, its documents are gone, the mapping is the supplied one, and a
document of another index survives. -/
theorem recreateIndex_spec_witness :
    let e0 : Engine :=
      { indices := ["yelp", "other"], analysisSettings := [],
        mappings := [(("yelp", "review"), REVIEW_MAPPING)],
        store := [(("yelp", "review", "r1"), review_data_dict rW1),
                  (("other", "t", "x"), [])],
        rejects := fun _ => false }
    (recreateIndex e0 "yelp" none "review" REVIEW_MAPPING).store.filter
        (fun p => p.1.1 = "yelp") = [] ∧
    lookupKey ("yelp", "review")
        (recreateIndex e0 "yelp" none "review" REVIEW_MAPPING).mappings
      = some REVIEW_MAPPING ∧
    (recreateIndex e0 "yelp" none "review" REVIEW_MAPPING).store.filter
        (fun p => p.1.1 ≠ "yelp")
      = [(("other", "t", "x"), [])] := by
  intro e0
  have h := recreateIndex_spec e0 "yelp" none "review" REVIEW_MAPPING (by decide)
  refine ⟨h.2.1, h.2.2.1, ?_⟩
  rw [h.2.2.2.2]
  decide

/-- C6: with recreate disabled (the delete and create of source lines
405-406 are commented out) the only executed call is `put_mapping` for
the new doc type `business`: the existing indices, analysis settings
and stored documents are all left unchanged, the mappings of every
other (index, doc type) pair are unchanged, and the business mapping
is layered on. -/
theorem addBusinessMapping_spec (e : Engine) :
    (addBusinessMapping e).indices = e.indices ∧
    (addBusinessMapping e).store = e.store ∧
    (addBusinessMapping e).analysisSettings = e.analysisSettings ∧
    lookupKey ("yelp", "business") (addBusinessMapping e).mappings = some B_MAPPING ∧
    ∀ k : String × String, k ≠ ("yelp", "business") →
      lookupKey k (addBusinessMapping e).mappings = lookupKey k e.mappings := by
  refine ⟨rfl, rfl, rfl, lookupKey_cons_self _ _ _, ?_⟩
  intro k hk
  show lookupKey k ((("yelp", "business"), B_MAPPING)
      :: e.mappings.filter (fun p => p.1 ≠ ("yelp", "business"))) = lookupKey k e.mappings
  rw [lookupKey]
  rw [if_neg (fun h => hk h.symm)]
  exact lookupKey_filter_other _ k e.mappings hk

/-- Witness for C6 on a concrete engine holding the review mapping and
one stored document: everything but the business mapping is untouched
and the review mapping is still resolvable. -/
theorem addBusinessMapping_spec_witness :
    let e0 : Engine :=
      { indices := ["yelp"], analysisSettings := [MY_SETTINGS].map (fun s => ("yelp", s)),
        mappings := [(("yelp", "review"), REVIEW_MAPPING)],
        store := [(("yelp", "review", "r1"), review_data_dict rW1)],
        rejects := fun _ => false }
    (addBusinessMapping e0).store = e0.store ∧
    (addBusinessMapping e0).analysisSettings = e0.analysisSettings ∧
    lookupKey ("yelp", "review") (addBusinessMapping e0).mappings
      = some REVIEW_MAPPING := by
  intro e0
  have h := addBusinessMapping_spec e0
  refine ⟨h.2.1, h.2.2.1, ?_⟩
  rw [h.2.2.2.2 ("yelp", "review") (by decide)]
  decide

/-- A witness engine carrying the notebook mappings for query claims. -/
def eA : Engine :=
  { indices := ["yelp"], analysisSettings := [],
    mappings := [(("yelp", "review"), REVIEW_MAPPING), (("yelp", "business"), B_MAPPING)],
    store := [], rejects := fun _ => false }

/-- C4 counterexample: the field `text` is mapped analyzed in the
review mapping, yet the exact-term filter issues the constant-score
term query for it anyway - the code performs no schema check and has
no fail-fast SchemaMismatch path before issuing the query. -/
theorem exactTermFilter_no_schema_check_counterexample :
    ((lookupKey "text" REVIEW_MAPPING).map (fun fm => fm.index))
      = some (some IndexMode.analyzed) ∧
    (exactTermFilter eA "yelp" "review" "text" "pizza").2
      = [.searchCall "yelp" "review" (.constantScoreTerm "text" "pizza")] := by
  exact ⟨by decide, rfl⟩

/-- C4 amended: the exact-term filter issues the constant-score term
query unconditionally, for every field and engine state, with no
mapping inspection and no error path; the single call the script makes
targets `business_id`, which the business mapping does map
`not_analyzed`, so that call is consistent with the documented
pitfall even though nothing guards it. -/
theorem exactTermFilter_unconditional (e : Engine) (ix dt field value : String) :
    (exactTermFilter e ix dt field value).2
      = [.searchCall ix dt (.constantScoreTerm field value)] ∧
    (exactTermFilter e ix dt field value).1 = esTermSearch e ix dt field value ∧
    ((lookupKey "business_id" B_MAPPING).map (fun fm => fm.index))
      = some (some IndexMode.not_analyzed) := by
  exact ⟨rfl, rfl, by decide⟩

/-- Overwriting a key twice in the store keeps a single entry for the
key, holding the second document. -/
theorem store_double_insert {K : Type} [DecidableEq K] (s : List (K × Doc))
    (k : K) (d1 d2 : Doc) :
    ((k, d2) :: ((k, d1) :: s.filter (fun p => p.1 ≠ k)).filter (fun p => p.1 ≠ k))
      = (k, d2) :: s.filter (fun p => p.1 ≠ k) := by
  rw [List.filter_cons, if_neg (by simp), filter_not_idem (fun p => p.1 = k) s]

/-- C8: submitting an index-kind operation twice for the same id, the
second time with changed content, overwrites the prior document: the
store afterwards holds exactly one document under that id, equal to
the second submission, and a term query on the id field returns
exactly that document - no duplicate hit and no stale value.  The
freshness hypothesis says no previously stored document carries that
id value in its `review_id` field. -/
theorem index_same_id_overwrites (e : Engine) (r1 r2 : ReviewRow) (i : String)
    (h1 : r1.review_id = i) (h2 : r2.review_id = i)
    (_hchanged : review_data_dict r1 ≠ review_data_dict r2)
    (hidx : "yelp" ∈ e.indices)
    (ha1 : e.rejects (review_data_dict r1) = false)
    (ha2 : e.rejects (review_data_dict r2) = false)
    (hfresh : ∀ p ∈ e.store, p.2.get "review_id" ≠ some (.str i)) :
    ∃ e1 e2 : Engine,
      esIndex e "yelp" "review" r1.review_id (review_data_dict r1) = .ok e1 ∧
      esIndex e1 "yelp" "review" r2.review_id (review_data_dict r2) = .ok e2 ∧
      (e2.store.filter (fun p => p.1 = ("yelp", "review", i))).map (fun p => p.2)
        = [review_data_dict r2] ∧
      esTermSearch e2 "yelp" "review" "review_id" i = [review_data_dict r2] := by
  subst h1
  rw [h2]
  refine ⟨_, _,
    esIndex_accept e "yelp" "review" r1.review_id (review_data_dict r1) hidx ha1,
    esIndex_accept _ "yelp" "review" r1.review_id (review_data_dict r2) hidx ha2,
    ?_, ?_⟩
  · dsimp only
    rw [store_double_insert e.store ("yelp", "review", r1.review_id)
      (review_data_dict r1) (review_data_dict r2)]
    rw [List.filter_cons, if_pos (by simp),
      filter_not_filter_eq_nil (fun p => p.1 = ("yelp", "review", r1.review_id)) e.store]
    rfl
  · dsimp only [esTermSearch]
    rw [store_double_insert e.store ("yelp", "review", r1.review_id)
      (review_data_dict r1) (review_data_dict r2)]
    rw [List.filter_cons, if_pos (by simp [review_data_dict_get_review_id, h2])]
    have htail : (e.store.filter
        (fun p => p.1 ≠ ("yelp", "review", r1.review_id))).filter
        (fun p => decide (p.1.1 = "yelp" ∧ p.1.2.1 = "review"
          ∧ p.2.get "review_id" = some (.str r1.review_id))) = [] := by
      rw [List.filter_eq_nil_iff]
      intro p hp
      have hmem := (List.mem_filter.mp hp).1
      have hf := hfresh p hmem
      simp only [decide_eq_true_eq, not_and]
      intro _ _ hcontra
      exact hf (h2 ▸ hcontra)
    rw [htail]
    rfl

/-- A copy of the first sample row with a changed `stars` value. -/
def rW3 : ReviewRow := { rW1 with stars := 4 }

/-- Witness for C8: re-submitting id r1 with a changed `stars` value
on the engine `eW` leaves a single stored document equal to the
second submission and a single query hit. -/
theorem index_same_id_overwrites_witness :
    (rW1.review_id = "r1") ∧ (rW3.review_id = "r1") ∧
    (review_data_dict rW1 ≠ review_data_dict rW3) ∧
    (∃ e1 e2 : Engine,
      esIndex eW "yelp" "review" rW1.review_id (review_data_dict rW1) = .ok e1 ∧
      esIndex e1 "yelp" "review" rW3.review_id (review_data_dict rW3) = .ok e2 ∧
      (e2.store.filter (fun p => p.1 = ("yelp", "review", "r1"))).map (fun p => p.2)
        = [review_data_dict rW3] ∧
      esTermSearch e2 "yelp" "review" "review_id" "r1" = [review_data_dict rW3]) := by
  refine ⟨rfl, rfl, by decide, ?_⟩
  exact index_same_id_overwrites eW rW1 rW3 "r1" rfl rfl (by decide) (by decide)
    (by decide) (by decide) (by simp [eW])

/-- Modelled from the spec: the analyzer registry component is absent
from the source; following the specification it exposes the engine
default analyzer as a named, resolvable pseudo-entry "standard",
whose definition is the one the source itself quotes for the default
analyzer (source lines 62-68). -/
def standardAnalyzer : AnalyzerSpec :=
  { type := "custom", char_filter := [], tokenizer := "standard",
    filter := ["lowercase", "stop"] }

/-- Modelled from the spec: the registry content with the default
pseudo-entry present. -/
def baseRegistry : List (String × AnalyzerSpec) := [("standard", standardAnalyzer)]

/-- Modelled from the spec: registry resolution by analyzer name. -/
def resolveAnalyzer (reg : List (String × AnalyzerSpec)) (i : String) :
    Option AnalyzerSpec := lookupKey i reg

/-- The analyzer resolution order the source quotes from the engine
documentation (source lines 74-78): the analyzer of the field mapping,
else the index default, else "standard". -/
def effectiveAnalyzer (fieldLevel indexDefault : Option String) : String :=
  fieldLevel.getD (indexDefault.getD "standard")

/-- The effective analyzer of one field mapping: none when the field
is mapped `not_analyzed`, otherwise resolved by the quoted order. -/
def effectiveFieldAnalyzer (fm : FieldMapping) (indexDefault : Option String) :
    Option String :=
  if fm.index = some .not_analyzed then none
  else some (effectiveAnalyzer fm.analyzer indexDefault)

/-- C9: a field mapping in analyzed mode that omits its analyzer
reference has the engine default "standard" as its effective analyzer
(the script configures no index-level default), and the registry
resolves "standard" to the explicit pseudo-entry rather than omitting
it. -/
theorem default_analyzer_explicit (fm : FieldMapping)
    (hmode : fm.index = some .analyzed) (hnone : fm.analyzer = none) :
    effectiveFieldAnalyzer fm none = some "standard" ∧
    resolveAnalyzer baseRegistry "standard" = some standardAnalyzer ∧
    (resolveAnalyzer baseRegistry "standard").isSome = true := by
  refine ⟨?_, rfl, rfl⟩
  rw [effectiveFieldAnalyzer, if_neg (by rw [hmode]; simp), effectiveAnalyzer, hnone]
  rfl

/-- Witness for C9 at a concrete analyzed field mapping without an
analyzer reference. -/
theorem default_analyzer_explicit_witness :
    effectiveFieldAnalyzer { index := some .analyzed, type := "string" } none
      = some "standard" :=
  (default_analyzer_explicit { index := some .analyzed, type := "string" } rfl rfl).1

/-- C10: for every source row, the action descriptor targets the id
given by the natural-key field of the row (`review_id` for reviews,
`business_id` for businesses), the same value is stored inside the
payload under the same field name, and the per-document fallback path
reads exactly that id from the payload - so the aggregate path and the
fallback path assign the same document identity to the same row. -/
theorem natural_key_identity (r : ReviewRow) (b : BizRow) :
    (review_op_dict r).id = r.review_id ∧
    (review_data_dict r).get "review_id" = some (.str r.review_id) ∧
    fallbackId (review_data_dict r) = some ((review_op_dict r).id) ∧
    (biz_op_dict b).id = b.business_id ∧
    (biz_data_dict b).get "business_id" = some (.str b.business_id) :=
  ⟨rfl, rfl, rfl, rfl, rfl⟩

end YelpES
